import Mathlib

set_option maxRecDepth 100000
set_option maxHeartbeats 1000000

/-!
Verification of the internal-network trust gate and credential broker in
`src/python/src/server/api_routes/internal_api.py`.

The development embeds the module shallowly:
* the textual IP/CIDR parsing performed by Python's `ipaddress.ip_address`
  and `ipaddress.ip_network(·, strict=False)` (CPython semantics for string
  inputs, ASCII addresses; dotted-netmask forms such as `a.b.c.d/255.0.0.0`
  are not modelled since the module only ever supplies numeric lengths);
* `_get_allowed_cidrs` / `is_internal_request` (the Origin Classifier);
* `get_agent_credentials` / `get_mcp_credentials` (the Credential Broker),
  with the external `credential_service` modelled from the spec's store
  interface.
Environment reads (`ALLOWED_INTERNAL_CIDRS`, `ARCHON_MCP_PORT`) and the
transport-provided client are passed as explicit parameters.
-/

/-- Characters removed by Python's `str.strip()` (ASCII subset). -/
def pyIsSpace (c : Char) : Bool :=
  c = ' ' || c = '\t' || c = '\n' || c = '\r' || c = '\x0b' || c = '\x0c'

/-- Python `str.strip()` on ASCII strings. -/
def pyStrip (s : String) : String :=
  String.mk (((s.data.dropWhile pyIsSpace).reverse.dropWhile pyIsSpace).reverse)

/-- Split a character list at every occurrence of `sep`; the semantics of
Python `str.split(sep)` for a one-character separator (`split` of the empty
string yields one empty field). -/
def splitChars (sep : Char) : List Char → List (List Char)
  | [] => [[]]
  | c :: cs =>
    if c = sep then
      [] :: splitChars sep cs
    else
      match splitChars sep cs with
      | [] => [[c]]
      | h :: t => (c :: h) :: t

/-- Python `s.split(sep)` for a one-character separator. -/
def pySplit (sep : Char) (s : String) : List String :=
  (splitChars sep s.data).map String.mk

/-- Value of a list of decimal digits. -/
def digitsVal (l : List Char) : Nat :=
  l.foldl (fun a c => a * 10 + (c.toNat - 48)) 0

/-- CPython `IPv4Address._parse_octet`: nonempty, ASCII decimal digits, at
most 3 characters, no leading zero (except `"0"` itself), value at most 255. -/
def _parse_octet (s : String) : Option Nat :=
  if s.data = [] then none
  else if ¬ s.data.all Char.isDigit then none
  else if s.data.length > 3 then none
  else if s.data.length > 1 ∧ s.data.head? = some '0' then none
  else
    let n := digitsVal s.data
    if n > 255 then none else some n

/-- CPython `IPv4Address._ip_int_from_string`: exactly four octets. -/
def parseIPv4 (s : String) : Option Nat :=
  match (pySplit '.' s).mapM _parse_octet with
  | some [a, b, c, d] => some (((a * 256 + b) * 256 + c) * 256 + d)
  | _ => none

def isHexDigitChar (c : Char) : Bool :=
  c.isDigit || ('a' ≤ c && c ≤ 'f') || ('A' ≤ c && c ≤ 'F')

def hexDigitVal (c : Char) : Nat :=
  if c.isDigit then c.toNat - 48
  else if c ≤ 'F' then c.toNat - 55
  else c.toNat - 87

/-- CPython `IPv6Address._parse_hextet`: nonempty, hex digits only, at most
4 characters. -/
def _parse_hextet (s : String) : Option Nat :=
  if s.data = [] then none
  else if ¬ s.data.all isHexDigitChar then none
  else if s.data.length > 4 then none
  else some (s.data.foldl (fun a c => a * 16 + hexDigitVal c) 0)

/-- Lowercase hexadecimal rendering, Python `'%x' % n`. -/
def natToHexString (n : Nat) : String :=
  String.mk (Nat.toDigits 16 n)

/-- Big-endian combination of 16-bit groups. -/
def hextetsVal (l : List Nat) : Nat :=
  l.foldl (fun a h => a * 65536 + h) 0

/-- CPython `IPv6Address._ip_int_from_string` (no scope id): colon groups
with at most one `::` run, optional embedded IPv4 suffix, eight hextets in
total. -/
def parseIPv6NoScope (s : String) : Option Nat :=
  if s.data = [] then none
  else
    let parts0 := pySplit ':' s
    if parts0.length < 3 then none
    else
      let withV4 : Option (List String) :=
        match parts0.getLast? with
        | none => none
        | some last =>
          if last.data.contains '.' then
            match parseIPv4 last with
            | none => none
            | some v4 =>
              some (parts0.dropLast ++
                [natToHexString (v4 / 65536), natToHexString (v4 % 65536)])
          else some parts0
      match withV4 with
      | none => none
      | some parts =>
        if parts.length > 9 then none
        else
          match (List.range parts.length).filter
              (fun i => decide (0 < i) && decide (i + 1 < parts.length) &&
                decide (parts[i]? = some "")) with
          | [] =>
            if parts.length ≠ 8 then none
            else if parts.head? = some "" then none
            else if parts.getLast? = some "" then none
            else (parts.mapM _parse_hextet).map hextetsVal
          | [i] =>
            let hiOpt : Option (List String) :=
              if parts.head? = some "" then (if i = 1 then some [] else none)
              else some (parts.take i)
            let loOpt : Option (List String) :=
              if parts.getLast? = some "" then
                (if parts.length = i + 2 then some [] else none)
              else some (parts.drop (i + 1))
            match hiOpt, loOpt with
            | some hi, some lo =>
              if hi.length + lo.length > 7 then none
              else
                match hi.mapM _parse_hextet, lo.mapM _parse_hextet with
                | some hiVals, some loVals =>
                  some (hextetsVal (hiVals ++
                    List.replicate (8 - (hi.length + lo.length)) 0 ++ loVals))
                | _, _ => none
            | _, _ => none
          | _ => none

/-- CPython `IPv6Address._split_scope_id` composed with the scopeless
parse: at most one `%`, nonempty scope id; the scope does not contribute to
the 128-bit value. -/
def parseIPv6 (s : String) : Option Nat :=
  match pySplit '%' s with
  | [a] => parseIPv6NoScope a
  | [a, scope] => if scope.data = [] then none else parseIPv6NoScope a
  | _ => none

/-- A parsed IP address: the result of Python `ipaddress.ip_address`. -/
inductive IPAddr where
  | v4 (n : Nat)
  | v6 (n : Nat)
deriving DecidableEq, Repr

/-- Python `ipaddress.ip_address` on a string: IPv4 first, then IPv6. -/
def ip_address (s : String) : Option IPAddr :=
  match parseIPv4 s with
  | some n => some (IPAddr.v4 n)
  | none =>
    match parseIPv6 s with
    | some n => some (IPAddr.v6 n)
    | none => none

/-- A parsed network: the result of Python `ipaddress.ip_network`, stored as
the (already masked) network address together with the mask length. -/
inductive IPNet where
  | v4 (netaddr plen : Nat)
  | v6 (netaddr plen : Nat)
deriving DecidableEq, Repr

/-- CPython `_prefix_from_prefix_string`: ASCII decimal digits only (leading
zeros permitted), value bounded by the family's full mask length. -/
def parsePlen (maxLen : Nat) (s : String) : Option Nat :=
  if s.data = [] then none
  else if ¬ s.data.all Char.isDigit then none
  else
    let n := digitsVal s.data
    if n ≤ maxLen then some n else none

/-- Keep the top `plen` of `w` bits of `n` (mask with the network mask). -/
def maskBits (w plen n : Nat) : Nat :=
  n / 2 ^ (w - plen) * 2 ^ (w - plen)

/-- Python `ipaddress.ip_network(s, strict=False)`: IPv4 interpretation
first, then IPv6; a missing `/` means the full-length mask; host bits are
masked away (`strict=False`). -/
def ip_network (s : String) : Option IPNet :=
  match pySplit '/' s with
  | [a] =>
    match parseIPv4 a with
    | some n => some (IPNet.v4 n 32)
    | none =>
      match parseIPv6NoScope a with
      | some n => some (IPNet.v6 n 128)
      | none => none
  | [a, p] =>
    match parseIPv4 a, parsePlen 32 p with
    | some n, some pl => some (IPNet.v4 (maskBits 32 pl n) pl)
    | _, _ =>
      match parseIPv6NoScope a, parsePlen 128 p with
      | some n, some pl => some (IPNet.v6 (maskBits 128 pl n) pl)
      | _, _ => none
  | _ => none

/-- Python `ip in network`: false across families, otherwise the masked
address must equal the network address. -/
def netContains (net : IPNet) (ip : IPAddr) : Bool :=
  match net, ip with
  | IPNet.v4 na pl, IPAddr.v4 i => decide (maskBits 32 pl i = na)
  | IPNet.v6 na pl, IPAddr.v6 i => decide (maskBits 128 pl i = na)
  | _, _ => false

/-- The built-in baseline allow-list (`DEFAULT_ALLOWED_CIDRS`). -/
def DEFAULT_ALLOWED_CIDRS : List String :=
  ["127.0.0.0/8", "::1/128", "10.0.0.0/8", "172.16.0.0/12", "192.168.0.0/16",
    "100.64.0.0/10"]

/-- `_get_allowed_cidrs`: the baseline followed by the comma-separated,
stripped, nonempty entries of the `ALLOWED_INTERNAL_CIDRS` environment value
(`none` models an unset variable, which `os.getenv` defaults to `""`). -/
def _get_allowed_cidrs (allowedInternalCidrs : Option String) : List String :=
  let extra := allowedInternalCidrs.getD ""
  let cidrs := ((pySplit ',' extra).map pyStrip).filter (fun c => c != "")
  DEFAULT_ALLOWED_CIDRS ++ cidrs

/-- The request data consulted by the module: the transport-reported client
address (`request.client.host`, absent when `request.client` is `None`) and
the request headers, which carry any forwarded-for identity. -/
structure Request where
  client : Option String
  headers : List (String × String)
deriving DecidableEq, Repr

/-- One iteration of the allow-list loop body: membership in the parsed
network, a `ValueError` from `ip_network` making this entry contribute
nothing (skip and continue). -/
def cidrMatches (ip : IPAddr) (cidr : String) : Bool :=
  match ip_network cidr with
  | some net => netContains net ip
  | none => false

/-- The `for cidr in _get_allowed_cidrs()` loop of `is_internal_request`:
return true on the first matching entry, false if none matches. -/
def matchesAllowSet (cidrs : List String) (ip : IPAddr) : Bool :=
  cidrs.any (cidrMatches ip)

/-- `is_internal_request`: fail closed on a missing or empty client address,
special-case the literal `"localhost"`, deny unparseable addresses, and
otherwise scan the allow-list. -/
def is_internal_request (allowedInternalCidrs : Option String)
    (req : Request) : Bool :=
  match req.client with
  | none => false
  | some host =>
    if host = "" then false
    else if host = "localhost" then true
    else
      match ip_address host with
      | none => false
      | some ip => matchesAllowSet (_get_allowed_cidrs allowedInternalCidrs) ip

/-- Failures of the external secret store (spec §6). -/
inductive StoreErr where
  | storeUnavailable
  | decryptionFailed
deriving DecidableEq, Repr

/-- The external secret store's state: for a key and a decryption flag,
either a failure, or the stored value (`none` when the key has no value). -/
abbrev RawStore := String → Bool → Except StoreErr (Option String)

/-- Modelled from the spec: `credential_service.get_credential` is outside
`src/`; per the spec's store interface (`get(key, decrypt, default) ->
optional string`, failing with `StoreUnavailable | DecryptionFailed`) and the
broker rule "if the store returns no value and `default` is set, use the
default", it returns the stored value, else the supplied default. -/
def get_credential (store : RawStore) (key : String) (decrypt : Bool)
    (dflt : Option String) : Except StoreErr (Option String) :=
  match store key decrypt with
  | Except.error e => Except.error e
  | Except.ok none => Except.ok dflt
  | Except.ok (some v) => Except.ok (some v)

/-- One entry of a credential dict literal: either an awaited
`get_credential` call, or a literal value computed without a store lookup. -/
inductive CredEntry where
  | fetch (key : String) (decrypt : Bool) (dflt : Option String)
  | literal (key : String) (value : String)
deriving DecidableEq, Repr

def entryKey : CredEntry → String
  | CredEntry.fetch k _ _ => k
  | CredEntry.literal k _ => k

/-- The f-string `http://archon-mcp:{os.getenv(ARCHON_MCP_PORT)}`; a missing
variable renders as Python's `None`. -/
def mcpServiceUrl (port : Option String) : String :=
  "http://archon-mcp:" ++ port.getD "None"

/-- The entries of the `credentials` dict literal of
`get_agent_credentials`, in evaluation order. Calls that pass no `decrypt`
argument are modelled with `decrypt = false`. -/
def agentEntries (mcpPort : Option String) : List CredEntry :=
  [CredEntry.fetch "OPENAI_API_KEY" true none,
    CredEntry.fetch "OPENAI_MODEL" false (some "gpt-4o-mini"),
    CredEntry.fetch "DOCUMENT_AGENT_MODEL" false (some "openai:gpt-4o"),
    CredEntry.fetch "RAG_AGENT_MODEL" false (some "openai:gpt-4o-mini"),
    CredEntry.fetch "TASK_AGENT_MODEL" false (some "openai:gpt-4o"),
    CredEntry.fetch "AGENT_RATE_LIMIT_ENABLED" false (some "true"),
    CredEntry.fetch "AGENT_MAX_RETRIES" false (some "3"),
    CredEntry.literal "MCP_SERVICE_URL" (mcpServiceUrl mcpPort),
    CredEntry.fetch "LOG_LEVEL" false (some "INFO")]

/-- Sequential evaluation of a credential dict literal: the first store
failure aborts the whole construction (the surrounding `try` block). -/
def buildBundle (store : RawStore) :
    List CredEntry → Except StoreErr (List (String × Option String))
  | [] => Except.ok []
  | CredEntry.fetch k d dflt :: rest =>
    match get_credential store k d dflt with
    | Except.error e => Except.error e
    | Except.ok v =>
      match buildBundle store rest with
      | Except.error e => Except.error e
      | Except.ok tail => Except.ok ((k, v) :: tail)
  | CredEntry.literal k v :: rest =>
    match buildBundle store rest with
    | Except.error e => Except.error e
    | Except.ok tail => Except.ok ((k, some v) :: tail)

/-- The dict comprehension filtering out `None` values in
`get_agent_credentials`. -/
def filterNoneValues (m : List (String × Option String)) :
    List (String × String) :=
  m.filterMap (fun p => p.2.map (fun v => (p.1, v)))

/-- An HTTP-level failure as raised by the endpoints. -/
structure HttpException where
  status : Nat
  detail : String
deriving DecidableEq, Repr

/-- The environment values the module reads. -/
structure Env where
  allowedInternalCidrs : Option String
  archonMcpPort : Option String
deriving DecidableEq, Repr

/-- `get_agent_credentials`: deny non-internal callers with 403 (logging
`request.client.host` first, which raises `AttributeError` — an unhandled
500 — when there is no client), build the credentials dict, drop `None`
values, and turn any store failure into a 500. -/
def get_agent_credentials (env : Env) (store : RawStore) (req : Request) :
    Except HttpException (List (String × String)) :=
  if is_internal_request env.allowedInternalCidrs req then
    match buildBundle store (agentEntries env.archonMcpPort) with
    | Except.error _ => Except.error ⟨500, "Failed to retrieve credentials"⟩
    | Except.ok creds => Except.ok (filterNoneValues creds)
  else
    match req.client with
    | some _ => Except.error ⟨403, "Access forbidden"⟩
    | none => Except.error ⟨500, "Internal Server Error"⟩

/-- The single entry of the `credentials` dict literal of
`get_mcp_credentials`. -/
def mcpEntries : List CredEntry :=
  [CredEntry.fetch "LOG_LEVEL" false (some "INFO")]

/-- `get_mcp_credentials`: like the agents endpoint but for the MCP profile,
and returning the built dict as-is — no `None`-filtering comprehension. -/
def get_mcp_credentials (env : Env) (store : RawStore) (req : Request) :
    Except HttpException (List (String × Option String)) :=
  if is_internal_request env.allowedInternalCidrs req then
    match buildBundle store mcpEntries with
    | Except.error _ => Except.error ⟨500, "Failed to retrieve credentials"⟩
    | Except.ok creds => Except.ok creds
  else
    match req.client with
    | some _ => Except.error ⟨403, "Access forbidden"⟩
    | none => Except.error ⟨500, "Internal Server Error"⟩

lemma allowed_none : _get_allowed_cidrs none = DEFAULT_ALLOWED_CIDRS := rfl

lemma allowed_ext (s : String) :
    _get_allowed_cidrs (some s) =
      DEFAULT_ALLOWED_CIDRS ++
        ((pySplit ',' s).map pyStrip).filter (fun c => c != "") := rfl

lemma allowed_ext203 :
    _get_allowed_cidrs (some "203.0.113.0/24") =
      DEFAULT_ALLOWED_CIDRS ++ ["203.0.113.0/24"] := rfl

lemma ip_address_empty : ip_address "" = none := rfl

lemma ip_address_localhost : ip_address "localhost" = none := rfl

/-- When the client host parses as an IP, `is_internal_request` is exactly
the allow-list scan on the parsed address. -/
lemma is_internal_eq_matches (cfg : Option String) (req : Request)
    (host : String) (ip : IPAddr) (hc : req.client = some host)
    (hp : ip_address host = some ip) :
    is_internal_request cfg req =
      matchesAllowSet (_get_allowed_cidrs cfg) ip := by
  have hne : host ≠ "" := by
    rintro rfl; rw [ip_address_empty] at hp; cases hp
  have hnl : host ≠ "localhost" := by
    rintro rfl; rw [ip_address_localhost] at hp; cases hp
  simp [is_internal_request, hc, hne, hnl, hp]

/-- C1: a missing or empty caller address is never trusted, and a non-empty
address other than the literal `"localhost"` that fails to parse as an IPv4
or IPv6 literal is never trusted (fail closed). -/
theorem is_internal_request_fail_closed (cfg : Option String) (req : Request) :
    (req.client = none → is_internal_request cfg req = false) ∧
    (req.client = some "" → is_internal_request cfg req = false) ∧
    (∀ host, req.client = some host → host ≠ "localhost" →
      ip_address host = none → is_internal_request cfg req = false) := by
  refine ⟨?_, ?_, ?_⟩
  · intro h; simp [is_internal_request, h]
  · intro h; simp [is_internal_request, h]
  · intro host hc hnl hp
    by_cases he : host = ""
    · simp [is_internal_request, hc, he]
    · simp [is_internal_request, hc, he, hnl, hp]

theorem is_internal_request_fail_closed_witness :
    is_internal_request none ⟨none, []⟩ = false ∧
    is_internal_request none ⟨some "", []⟩ = false ∧
    is_internal_request none ⟨some "not-an-ip", []⟩ = false :=
  ⟨(is_internal_request_fail_closed none ⟨none, []⟩).1 rfl,
    (is_internal_request_fail_closed none ⟨some "", []⟩).2.1 rfl,
    (is_internal_request_fail_closed none ⟨some "not-an-ip", []⟩).2.2
      "not-an-ip" rfl (by decide) rfl⟩

/-- C2: with no extension configuration, an address inside some baseline
CIDR is trusted, and an address outside every configured range is denied. -/
theorem is_internal_request_baseline (req : Request) (host : String)
    (ip : IPAddr) (hc : req.client = some host)
    (hp : ip_address host = some ip) :
    ((∃ cidr ∈ DEFAULT_ALLOWED_CIDRS, cidrMatches ip cidr = true) →
      is_internal_request none req = true) ∧
    ((∀ cidr ∈ _get_allowed_cidrs none, cidrMatches ip cidr = false) →
      is_internal_request none req = false) := by
  have hb := is_internal_eq_matches none req host ip hc hp
  rw [hb, allowed_none]
  constructor
  · rintro ⟨cidr, hmem, hmatch⟩
    exact List.any_eq_true.mpr ⟨cidr, hmem, hmatch⟩
  · intro hall
    simp only [matchesAllowSet, List.any_eq_false]
    intro cidr hmem
    simp [hall cidr hmem]

theorem is_internal_request_baseline_witness :
    is_internal_request none ⟨some "127.0.0.1", []⟩ = true ∧
    is_internal_request none ⟨some "10.1.2.3", []⟩ = true ∧
    is_internal_request none ⟨some "172.20.0.5", []⟩ = true ∧
    is_internal_request none ⟨some "192.168.1.1", []⟩ = true ∧
    is_internal_request none ⟨some "100.64.0.1", []⟩ = true ∧
    is_internal_request none ⟨some "8.8.8.8", []⟩ = false :=
  ⟨(is_internal_request_baseline ⟨some "127.0.0.1", []⟩ "127.0.0.1" _ rfl
      rfl).1 ⟨"127.0.0.0/8", by decide, by decide⟩,
    (is_internal_request_baseline ⟨some "10.1.2.3", []⟩ "10.1.2.3" _ rfl
      rfl).1 ⟨"10.0.0.0/8", by decide, by decide⟩,
    (is_internal_request_baseline ⟨some "172.20.0.5", []⟩ "172.20.0.5" _ rfl
      rfl).1 ⟨"172.16.0.0/12", by decide, by decide⟩,
    (is_internal_request_baseline ⟨some "192.168.1.1", []⟩ "192.168.1.1" _ rfl
      rfl).1 ⟨"192.168.0.0/16", by decide, by decide⟩,
    (is_internal_request_baseline ⟨some "100.64.0.1", []⟩ "100.64.0.1" _ rfl
      rfl).1 ⟨"100.64.0.0/10", by decide, by decide⟩,
    (is_internal_request_baseline ⟨some "8.8.8.8", []⟩ "8.8.8.8" _ rfl
      rfl).2 (by decide)⟩

/-- C5: a malformed range entry in the allow-set is skipped — the outcome
equals that of the same allow-set with the malformed entry removed. -/
theorem allow_set_skips_malformed (ip : IPAddr) (pre post : List String)
    (bad : String) (hbad : ip_network bad = none) :
    matchesAllowSet (pre ++ bad :: post) ip =
      matchesAllowSet (pre ++ post) ip := by
  simp [matchesAllowSet, List.any_append, List.any_cons, cidrMatches, hbad]

theorem allow_set_skips_malformed_witness :
    matchesAllowSet (["127.0.0.0/8"] ++ "not-a-cidr" :: ["10.0.0.0/8"])
        (IPAddr.v4 134744072) =
      matchesAllowSet (["127.0.0.0/8"] ++ ["10.0.0.0/8"])
        (IPAddr.v4 134744072) :=
  allow_set_skips_malformed (IPAddr.v4 134744072) ["127.0.0.0/8"]
    ["10.0.0.0/8"] "not-a-cidr" rfl

/-- C7: the literal `"localhost"` is trusted for every configuration, and it
is not a parseable IP literal, so the membership machinery could not have
produced this outcome — the special case fires before parsing. -/
theorem localhost_special_case (cfg : Option String)
    (hs : List (String × String)) :
    is_internal_request cfg ⟨some "localhost", hs⟩ = true ∧
    ip_address "localhost" = none :=
  ⟨rfl, rfl⟩

/-- C8: the allow/deny outcome of the allow-list scan depends only on
whether the address matches some valid range: it is invariant under
permutation and duplication of the ranges. -/
theorem allow_set_order_irrelevant (ip : IPAddr) (l₁ l₂ : List String)
    (hperm : l₁.Perm l₂) :
    matchesAllowSet l₁ ip = matchesAllowSet l₂ ip ∧
    (∀ l : List String, matchesAllowSet (l ++ l) ip = matchesAllowSet l ip) ∧
    (matchesAllowSet l₁ ip = true ↔
      ∃ cidr, cidr ∈ l₁ ∧ cidrMatches ip cidr = true) := by
  refine ⟨?_, ?_, List.any_eq_true⟩
  · induction hperm with
    | nil => rfl
    | cons x _ ih =>
      simp only [matchesAllowSet, List.any_cons] at ih ⊢
      rw [ih]
    | swap x y l =>
      simp only [matchesAllowSet, List.any_cons]
      rw [Bool.or_left_comm]
    | trans _ _ ih₁ ih₂ => exact ih₁.trans ih₂
  · intro l
    simp [matchesAllowSet, List.any_append]

theorem allow_set_order_irrelevant_witness :
    matchesAllowSet ["10.0.0.0/8", "127.0.0.0/8"] (IPAddr.v4 2130706433) =
      matchesAllowSet ["127.0.0.0/8", "10.0.0.0/8"] (IPAddr.v4 2130706433) :=
  (allow_set_order_irrelevant (IPAddr.v4 2130706433) _ _
    (List.Perm.swap "127.0.0.0/8" "10.0.0.0/8" [])).1

/-- C9: the trust decision reads only the transport-reported client address
and the configuration — two requests with the same client address yield the
same result whatever their headers say. -/
theorem trust_ignores_headers (cfg : Option String) (r₁ r₂ : Request)
    (h : r₁.client = r₂.client) :
    is_internal_request cfg r₁ = is_internal_request cfg r₂ := by
  unfold is_internal_request
  rw [h]

theorem trust_ignores_headers_witness :
    is_internal_request none
        ⟨some "127.0.0.1", [("x-forwarded-for", "8.8.8.8")]⟩ =
      is_internal_request none ⟨some "127.0.0.1", []⟩ :=
  trust_ignores_headers none _ _ rfl

/-- C6: extension ranges are appended after the baseline: every address
trusted without the extension stays trusted with any extension
(monotonicity); an address matching an added range (e.g. `203.0.113.0/24`)
becomes trusted; an address matching no added range keeps its outcome. -/
theorem allow_set_extension_monotone :
    (∀ extra req, is_internal_request none req = true →
      is_internal_request (some extra) req = true) ∧
    (∀ req host ip, req.client = some host → ip_address host = some ip →
      cidrMatches ip "203.0.113.0/24" = true →
      is_internal_request (some "203.0.113.0/24") req = true) ∧
    (∀ req, (∀ host ip, req.client = some host → ip_address host = some ip →
        cidrMatches ip "203.0.113.0/24" = false) →
      is_internal_request (some "203.0.113.0/24") req =
        is_internal_request none req) := by
  refine ⟨?_, ?_, ?_⟩
  · intro extra req h
    rcases hc : req.client with _ | host
    · simp [is_internal_request, hc] at h
    · by_cases he : host = ""
      · simp [is_internal_request, hc, he] at h
      · by_cases hl : host = "localhost"
        · simp [is_internal_request, hc, he, hl]
        · rcases hip : ip_address host with _ | ip
          · simp [is_internal_request, hc, he, hl, hip] at h
          · rw [is_internal_eq_matches none req host ip hc hip,
              allowed_none] at h
            rw [is_internal_eq_matches (some extra) req host ip hc hip,
              allowed_ext]
            simp only [matchesAllowSet, List.any_append] at h ⊢
            simp [h]
  · intro req host ip hc hip hm
    rw [is_internal_eq_matches (some "203.0.113.0/24") req host ip hc hip,
      allowed_ext203]
    simp [matchesAllowSet, List.any_append, List.any_cons, hm]
  · intro req hnone
    rcases hc : req.client with _ | host
    · simp [is_internal_request, hc]
    · by_cases he : host = ""
      · simp [is_internal_request, hc, he]
      · by_cases hl : host = "localhost"
        · simp [is_internal_request, hc, he, hl]
        · rcases hip : ip_address host with _ | ip
          · simp [is_internal_request, hc, he, hl, hip]
          · rw [is_internal_eq_matches (some "203.0.113.0/24") req host ip hc
              hip, allowed_ext203,
              is_internal_eq_matches none req host ip hc hip, allowed_none]
            simp [matchesAllowSet, List.any_append, List.any_cons,
              hnone host ip hc hip]

theorem allow_set_extension_monotone_witness :
    is_internal_request (some "203.0.113.0/24") ⟨some "127.0.0.1", []⟩ =
      true ∧
    is_internal_request (some "203.0.113.0/24") ⟨some "203.0.113.5", []⟩ =
      true ∧
    is_internal_request (some "203.0.113.0/24") ⟨some "8.8.8.8", []⟩ =
      is_internal_request none ⟨some "8.8.8.8", []⟩ :=
  ⟨allow_set_extension_monotone.1 "203.0.113.0/24" ⟨some "127.0.0.1", []⟩
      (by decide),
    allow_set_extension_monotone.2.1 ⟨some "203.0.113.5", []⟩ "203.0.113.5"
      (IPAddr.v4 3405803781) rfl rfl (by decide),
    allow_set_extension_monotone.2.2 ⟨some "8.8.8.8", []⟩
      (fun host ip hc hip => by
        have hh : "8.8.8.8" = host := by
          simpa using hc
        subst hh
        rw [show ip_address "8.8.8.8" = some (IPAddr.v4 134744072) from rfl]
          at hip
        injection hip with h2
        subst h2
        decide)⟩

/-- A store failure on any fetched key makes the whole bundle construction
fail. -/
lemma buildBundle_error_of_fetch_error (store : RawStore) :
    ∀ entries : List CredEntry,
      (∃ k d f e, CredEntry.fetch k d f ∈ entries ∧
        store k d = Except.error e) →
      ∃ err, buildBundle store entries = Except.error err := by
  intro entries
  induction entries with
  | nil =>
    rintro ⟨k, d, f, e, hmem, _⟩
    cases hmem
  | cons hd rest ih =>
    rintro ⟨k, d, f, e, hmem, herr⟩
    rcases List.mem_cons.1 hmem with heq | hmem'
    · subst heq
      exact ⟨e, by simp [buildBundle, get_credential, herr]⟩
    · cases hd with
      | fetch k' d' f' =>
        rcases hs : store k' d' with e' | v
        · exact ⟨e', by simp [buildBundle, get_credential, hs]⟩
        · obtain ⟨err, hrest⟩ := ih ⟨k, d, f, e, hmem', herr⟩
          refine ⟨err, ?_⟩
          rcases v with _ | x <;>
            simp [buildBundle, get_credential, hs, hrest]
      | literal k' v =>
        obtain ⟨err, hrest⟩ := ih ⟨k, d, f, e, hmem', herr⟩
        exact ⟨err, by simp [buildBundle, hrest]⟩

/-- C3: for both consumer profiles, a store failure on any key of the
profile's list turns the whole request into a single 500 server error, with
no bundle returned. -/
theorem credentials_store_failure_500 (env : Env) (store : RawStore)
    (req : Request)
    (hint : is_internal_request env.allowedInternalCidrs req = true) :
    ((∃ k d f e, CredEntry.fetch k d f ∈ agentEntries env.archonMcpPort ∧
        store k d = Except.error e) →
      get_agent_credentials env store req =
        Except.error ⟨500, "Failed to retrieve credentials"⟩) ∧
    ((∃ e, store "LOG_LEVEL" false = Except.error e) →
      get_mcp_credentials env store req =
        Except.error ⟨500, "Failed to retrieve credentials"⟩) := by
  constructor
  · intro hex
    obtain ⟨err, herr⟩ := buildBundle_error_of_fetch_error store _ hex
    simp [get_agent_credentials, hint, herr]
  · rintro ⟨e, he⟩
    obtain ⟨err, herr⟩ := buildBundle_error_of_fetch_error store mcpEntries
      ⟨"LOG_LEVEL", false, some "INFO", e, by simp [mcpEntries], he⟩
    simp [get_mcp_credentials, hint, herr]

theorem credentials_store_failure_500_witness :
    get_agent_credentials ⟨none, none⟩
        (fun _ _ => Except.error StoreErr.storeUnavailable)
        ⟨some "127.0.0.1", []⟩ =
      Except.error ⟨500, "Failed to retrieve credentials"⟩ ∧
    get_mcp_credentials ⟨none, none⟩
        (fun _ _ => Except.error StoreErr.storeUnavailable)
        ⟨some "127.0.0.1", []⟩ =
      Except.error ⟨500, "Failed to retrieve credentials"⟩ :=
  ⟨(credentials_store_failure_500 ⟨none, none⟩
      (fun _ _ => Except.error StoreErr.storeUnavailable)
      ⟨some "127.0.0.1", []⟩ (by decide)).1
      ⟨"OPENAI_API_KEY", true, none, StoreErr.storeUnavailable, by decide,
        rfl⟩,
    (credentials_store_failure_500 ⟨none, none⟩
      (fun _ _ => Except.error StoreErr.storeUnavailable)
      ⟨some "127.0.0.1", []⟩ (by decide)).2
      ⟨StoreErr.storeUnavailable, rfl⟩⟩

/-- A successful bundle construction yields exactly the entry keys, in
order. -/
lemma buildBundle_keys (store : RawStore) :
    ∀ entries raw, buildBundle store entries = Except.ok raw →
      raw.map Prod.fst = entries.map entryKey := by
  intro entries
  induction entries with
  | nil =>
    intro raw h
    simp [buildBundle] at h
    subst h
    rfl
  | cons hd rest ih =>
    intro raw h
    cases hd with
    | fetch k d f =>
      simp only [buildBundle] at h
      rcases hg : get_credential store k d f with e | v
      · rw [hg] at h; simp at h
      · rw [hg] at h
        rcases hr : buildBundle store rest with e' | tail
        · rw [hr] at h; simp at h
        · rw [hr] at h
          simp at h
          subst h
          simp [entryKey, ih tail hr]
    | literal k v =>
      simp only [buildBundle] at h
      rcases hr : buildBundle store rest with e' | tail
      · rw [hr] at h; simp at h
      · rw [hr] at h
        simp at h
        subst h
        simp [entryKey, ih tail hr]

/-- A key absent from a raw bundle is absent from its filtered form. -/
lemma lookup_filterNone_of_not_mem (k : String) :
    ∀ m : List (String × Option String), k ∉ m.map Prod.fst →
      (filterNoneValues m).lookup k = none := by
  intro m
  induction m with
  | nil => intro _; rfl
  | cons p rest ih =>
    intro hnm
    rcases p with ⟨k', v⟩
    simp only [List.map_cons, List.mem_cons] at hnm
    push_neg at hnm
    rcases hnm with ⟨hk, hrest⟩
    rcases v with _ | s
    · simpa [filterNoneValues] using ih hrest
    · simpa [filterNoneValues, List.lookup, beq_eq_false_iff_ne.mpr hk]
        using ih hrest

/-- In a bundle built from entries with distinct keys, a fetched key for
which the store holds no value resolves to its declared default, and is
dropped by the filter when there is none. -/
lemma bundle_lookup (store : RawStore) (k : String) (d : Bool)
    (dflt : Option String) :
    ∀ entries raw, (entries.map entryKey).Nodup →
      CredEntry.fetch k d dflt ∈ entries →
      store k d = Except.ok none →
      buildBundle store entries = Except.ok raw →
      (filterNoneValues raw).lookup k = dflt := by
  intro entries
  induction entries with
  | nil => intro raw _ hmem _ _; cases hmem
  | cons hd rest ih =>
    intro raw hnd hmem hnone hbb
    simp only [List.map_cons, List.nodup_cons] at hnd
    rcases hnd with ⟨hkhd, hndrest⟩
    rcases List.mem_cons.1 hmem with heq | hmem'
    · subst heq
      simp only [buildBundle, get_credential, hnone] at hbb
      rcases hr : buildBundle store rest with e | tail
      · rw [hr] at hbb; simp at hbb
      · rw [hr] at hbb
        simp at hbb
        subst hbb
        have hkeys : tail.map Prod.fst = rest.map entryKey :=
          buildBundle_keys store rest tail hr
        have hk2 : k ∉ rest.map entryKey := hkhd
        rcases dflt with _ | s
        · have hk3 : k ∉ tail.map Prod.fst := by rw [hkeys]; exact hk2
          simpa [filterNoneValues] using
            lookup_filterNone_of_not_mem k tail hk3
        · simp [filterNoneValues, List.lookup]
    · have hkin : k ∈ rest.map entryKey :=
        List.mem_map_of_mem entryKey hmem'
      have hkne : k ≠ entryKey hd := fun h => hkhd (h ▸ hkin)
      cases hd with
      | fetch k' d' f' =>
        simp only [buildBundle] at hbb
        rcases hg : get_credential store k' d' f' with e | v
        · rw [hg] at hbb; simp at hbb
        · rw [hg] at hbb
          rcases hr : buildBundle store rest with e | tail
          · rw [hr] at hbb; simp at hbb
          · rw [hr] at hbb
            simp at hbb
            subst hbb
            have hlk := ih tail hndrest hmem' hnone hr
            have hkne2 : k ≠ k' := hkne
            rcases v with _ | x
            · simpa [filterNoneValues] using hlk
            · simpa [filterNoneValues, List.lookup,
                beq_eq_false_iff_ne.mpr hkne2] using hlk
      | literal k' v =>
        simp only [buildBundle] at hbb
        rcases hr : buildBundle store rest with e | tail
        · rw [hr] at hbb; simp at hbb
        · rw [hr] at hbb
          simp at hbb
          subst hbb
          have hlk := ih tail hndrest hmem' hnone hr
          have hkne2 : k ≠ k' := hkne
          simpa [filterNoneValues, List.lookup,
            beq_eq_false_iff_ne.mpr hkne2] using hlk

/-- C4: in the agents bundle, a key the store has no value for maps to its
declared default when one exists, and is entirely absent from the returned
bundle when none does. -/
theorem agent_bundle_default_or_absent (env : Env) (store : RawStore)
    (req : Request) (k : String) (d : Bool) (dflt : Option String)
    (bundle : List (String × String))
    (hmem : CredEntry.fetch k d dflt ∈ agentEntries env.archonMcpPort)
    (hnone : store k d = Except.ok none)
    (hok : get_agent_credentials env store req = Except.ok bundle) :
    bundle.lookup k = dflt := by
  unfold get_agent_credentials at hok
  by_cases hint : is_internal_request env.allowedInternalCidrs req = true
  · rw [if_pos hint] at hok
    rcases hbb : buildBundle store (agentEntries env.archonMcpPort)
      with e | raw
    · rw [hbb] at hok; simp at hok
    · rw [hbb] at hok
      simp only [Except.ok.injEq] at hok
      subst hok
      have hkeys : (agentEntries env.archonMcpPort).map entryKey =
          ["OPENAI_API_KEY", "OPENAI_MODEL", "DOCUMENT_AGENT_MODEL",
            "RAG_AGENT_MODEL", "TASK_AGENT_MODEL",
            "AGENT_RATE_LIMIT_ENABLED", "AGENT_MAX_RETRIES",
            "MCP_SERVICE_URL", "LOG_LEVEL"] := rfl
      have hnd : ((agentEntries env.archonMcpPort).map entryKey).Nodup := by
        rw [hkeys]; decide
      exact bundle_lookup store k d dflt _ raw hnd hmem hnone hbb
  · rw [if_neg hint] at hok
    rcases hc : req.client with _ | h
    · rw [hc] at hok; simp at hok
    · rw [hc] at hok; simp at hok

theorem agent_bundle_default_or_absent_witness :
    (([("OPENAI_MODEL", "gpt-4o-mini"),
      ("DOCUMENT_AGENT_MODEL", "openai:gpt-4o"),
      ("RAG_AGENT_MODEL", "openai:gpt-4o-mini"),
      ("TASK_AGENT_MODEL", "openai:gpt-4o"),
      ("AGENT_RATE_LIMIT_ENABLED", "true"), ("AGENT_MAX_RETRIES", "3"),
      ("MCP_SERVICE_URL", "http://archon-mcp:None"),
      ("LOG_LEVEL", "INFO")] : List (String × String)).lookup
        "AGENT_MAX_RETRIES" = some "3") ∧
    (([("OPENAI_MODEL", "gpt-4o-mini"),
      ("DOCUMENT_AGENT_MODEL", "openai:gpt-4o"),
      ("RAG_AGENT_MODEL", "openai:gpt-4o-mini"),
      ("TASK_AGENT_MODEL", "openai:gpt-4o"),
      ("AGENT_RATE_LIMIT_ENABLED", "true"), ("AGENT_MAX_RETRIES", "3"),
      ("MCP_SERVICE_URL", "http://archon-mcp:None"),
      ("LOG_LEVEL", "INFO")] : List (String × String)).lookup
        "OPENAI_API_KEY" = none) :=
  ⟨agent_bundle_default_or_absent ⟨none, none⟩ (fun _ _ => Except.ok none)
      ⟨some "127.0.0.1", []⟩ "AGENT_MAX_RETRIES" false (some "3") _
      (by decide) rfl rfl,
    agent_bundle_default_or_absent ⟨none, none⟩ (fun _ _ => Except.ok none)
      ⟨some "127.0.0.1", []⟩ "OPENAI_API_KEY" true none _ (by decide) rfl
      rfl⟩

/-- C10: the MCP endpoint returns the built mapping as-is — exactly the key
`LOG_LEVEL` bound to the store's value or the default `"INFO"` — applying no
absent-value omission step, whereas the agents-side filter would drop an
absent value. -/
theorem mcp_bundle_unfiltered (env : Env) (store : RawStore) (req : Request)
    (hint : is_internal_request env.allowedInternalCidrs req = true) :
    (∀ r, store "LOG_LEVEL" false = Except.ok r →
      get_mcp_credentials env store req =
        Except.ok [("LOG_LEVEL", some (r.getD "INFO"))]) ∧
    (∀ m, buildBundle store mcpEntries = Except.ok m →
      get_mcp_credentials env store req = Except.ok m) ∧
    filterNoneValues [("LOG_LEVEL", (none : Option String))] = [] := by
  refine ⟨?_, ?_, rfl⟩
  · intro r hr
    rcases r with _ | s <;>
      simp [get_mcp_credentials, hint, mcpEntries, buildBundle,
        get_credential, hr, Option.getD]
  · intro m hm
    simp [get_mcp_credentials, hint, hm]

theorem mcp_bundle_unfiltered_witness :
    get_mcp_credentials ⟨none, none⟩ (fun _ _ => Except.ok none)
        ⟨some "127.0.0.1", []⟩ =
      Except.ok [("LOG_LEVEL", some "INFO")] :=
  (mcp_bundle_unfiltered ⟨none, none⟩ (fun _ _ => Except.ok none)
    ⟨some "127.0.0.1", []⟩ (by decide)).1 none rfl
